import Mathlib

/-!
# Tank.io server — shallow embedding and verification

A shallow embedding of the authoritative game server (`src/server.js`):
the entity stores, the connection lifecycle (join / spectate / disconnect /
promotion), the input handlers (`playerMove`, `playerShoot`), and the
fixed-tick simulation loop (power-up spawn and expiry, bullet advance,
collision resolution, leaderboard, broadcast).

Modelling conventions:
* JS `Map`s are insertion-ordered association lists `List (String × α)`;
  the JS `Set` of spectators is an insertion-ordered `List String`.
* JS numbers carrying coordinates, velocities and angles are `ℚ`;
  millisecond timestamps are `Nat`; scores and health are `Int`.
* Every `Math.random()` draw and every `generateId()` result is an explicit
  oracle parameter, so all definitions are deterministic and executable.
* All `Date.now()` calls made during one handler invocation or one tick are
  modelled by the single `now : Nat` parameter of that invocation.
* JS object fields that some code path leaves absent (`undefined`) are
  `Option`-typed; a handler that would throw a `TypeError` by reading a
  field of an absent sub-object returns `none`.
-/

namespace Tank

/-! ## Constants (top of server.js) -/

def MAX_PLAYERS : Nat := 8
def GAME_WIDTH : ℚ := 1200
def GAME_HEIGHT : ℚ := 800
def TANK_SIZE : ℚ := 40
def BULLET_SIZE : ℚ := 6
def BULLET_SPEED : ℚ := 12
def TANK_SPEED : ℚ := 4
def POWER_UP_SPAWN_RATE : ℚ := 2 / 100
def EXPLOSION_DURATION : Nat := 500

/-! ## Geometry utility -/

structure Rect where
  x : ℚ
  y : ℚ
  width : ℚ
  height : ℚ

/-- `checkCollision` from server.js: axis-aligned bounding-box overlap. -/
def checkCollision (rect1 rect2 : Rect) : Bool :=
  decide (rect1.x < rect2.x + rect2.width) &&
  decide (rect1.x + rect1.width > rect2.x) &&
  decide (rect1.y < rect2.y + rect2.height) &&
  decide (rect1.y + rect1.height > rect2.y)

/-! ## Entities -/

/-- The `powerUps` sub-object of a player: absolute expiry timestamps (ms);
an effect is active iff its expiry is strictly greater than now; `0` = inactive. -/
structure Effects where
  speed : Nat
  shield : Nat
  rapidFire : Nat
  damage : Nat
deriving Repr, DecidableEq

/-- A player object. Fields that the on-connect literal sets but some other
creation path omits are `Option`-typed (`none` = absent / `undefined`). -/
structure Player where
  id : String
  x : ℚ
  y : ℚ
  angle : ℚ
  health : Int
  maxHealth : Option Int
  score : Int
  kills : Option Int
  deaths : Option Int
  colorHue : ℚ
  powerUps : Option Effects
  lastShot : Option Nat
  team : Option Int
deriving Repr, DecidableEq

/-- All fields a well-behaved (join-path) player carries are present. -/
def Player.wellFormed (p : Player) : Bool :=
  p.maxHealth.isSome && p.kills.isSome && p.deaths.isSome &&
  p.powerUps.isSome && p.lastShot.isSome && p.team.isSome

/-- The player object literal built by the on-connect join path
(server.js lines 152–171).  `rx ry rcolor rteam` are the `Math.random()`
draws (each in `[0,1)`); the hsl colour keeps only its random hue. -/
def mkConnectPlayer (id : String) (rx ry rcolor rteam : ℚ) : Player :=
  { id := id
    x := rx * (GAME_WIDTH - TANK_SIZE)
    y := ry * (GAME_HEIGHT - TANK_SIZE)
    angle := 0
    health := 100
    maxHealth := some 100
    score := 0
    kills := some 0
    deaths := some 0
    colorHue := rcolor * 360
    powerUps := some { speed := 0, shield := 0, rapidFire := 0, damage := 0 }
    lastShot := some 0
    team := some ⌊rteam * 2⌋ }

/-- The player object literal built by the spectator-promotion branch of the
disconnect handler (server.js lines 270–278).  The literal stops after
`color`: `maxHealth`, `kills`, `deaths`, `powerUps`, `lastShot` and `team`
are absent from it. -/
def mkPromotedPlayer (id : String) (rx ry rcolor : ℚ) : Player :=
  { id := id
    x := rx * (GAME_WIDTH - TANK_SIZE)
    y := ry * (GAME_HEIGHT - TANK_SIZE)
    angle := 0
    health := 100
    maxHealth := none
    score := 0
    kills := none
    deaths := none
    colorHue := rcolor * 360
    powerUps := none
    lastShot := none
    team := none }

structure Bullet where
  id : String
  playerId : String
  x : ℚ
  y : ℚ
  dx : ℚ
  dy : ℚ
  angle : ℚ
  damage : Int
  color : String
deriving Repr, DecidableEq

inductive PUKind where
  | speed
  | shield
  | rapidFire
  | health
  | damage
deriving Repr, DecidableEq

/-- Effect durations from the `POWER_UP_TYPES` table (ms). -/
def PUKind.duration : PUKind → Nat
  | .speed => 10000
  | .shield => 8000
  | .rapidFire => 7000
  | .health => 0
  | .damage => 12000

structure PowerUp where
  id : String
  x : ℚ
  y : ℚ
  kind : PUKind
  duration : Nat
  spawnTime : Nat
deriving Repr, DecidableEq

structure Explosion where
  id : String
  x : ℚ
  y : ℚ
  size : ℚ
  startTime : Nat
  duration : Nat
deriving Repr, DecidableEq

structure LBEntry where
  id : String
  score : Int
  kills : Int
  deaths : Int
  kd : ℚ
deriving Repr, DecidableEq

/-! ## Insertion-ordered map and set operations (JS `Map` / `Set`) -/

/-- `Map.get`. -/
def findVal (k : String) : List (String × α) → Option α
  | [] => none
  | (k2, v) :: rest => if k2 = k then some v else findVal k rest

/-- `Map.set`: overwrite in place if present, else append. -/
def setVal (k : String) (v : α) : List (String × α) → List (String × α)
  | [] => [(k, v)]
  | (k2, v2) :: rest => if k2 = k then (k, v) :: rest else (k2, v2) :: setVal k v rest

/-- `Map.delete`. -/
def delVal (k : String) : List (String × α) → List (String × α)
  | [] => []
  | (k2, v2) :: rest => if k2 = k then delVal k rest else (k2, v2) :: delVal k rest

/-- `Set.add`: no-op when already a member, else append. -/
def setAdd (k : String) (l : List String) : List String :=
  if k ∈ l then l else l ++ [k]

/-- `Set.delete`. -/
def setDel (k : String) (l : List String) : List String :=
  l.filter (fun a => a != k)

/-! ## Outbound events -/

inductive Event where
  | gameFull (queuePos : Nat)
  | gameStateMsg (isSpectator : Bool)
  | playerJoined (playerCount : Nat)
  | powerUpCollected (kind : PUKind)
  | promotedToPlayer (id : String)
  | playerCountUpdate (playerCount spectatorCount : Nat)
  | playerHit (playerId shooterId : String) (damage : Int) (x y : ℚ)
  | playerKilled (killerScore victimScore : Int)
  | gameUpdate (players : List Player) (bullets : List Bullet)
      (powerUps : List PowerUp) (explosions : List Explosion)
      (leaderboard : List LBEntry)
deriving Repr, DecidableEq

/-! ## Game state -/

structure GameState where
  players : List (String × Player)
  bullets : List (String × Bullet)
  spectators : List String
  powerUps : List (String × PowerUp)
  explosions : List (String × Explosion)
  leaderboard : List LBEntry
deriving Repr, DecidableEq

/-! ## Helper functions from server.js -/

/-- One leaderboard stat record (the `map` step of `updateLeaderboard`).
`kd` keeps the numeric ratio that `toFixed(2)` formats for display.
Fails when the player lacks `kills`/`deaths` (the source would throw
calling `toFixed` on `undefined`). -/
def lbStat (p : Player) : Option LBEntry := do
  let k ← p.kills
  let d ← p.deaths
  pure { id := p.id, score := p.score, kills := k, deaths := d,
         kd := if d > 0 then (k : ℚ) / (d : ℚ) else (k : ℚ) }

/-- Insert into a list kept in non-increasing `score` order. -/
def insertDesc (e : LBEntry) : List LBEntry → List LBEntry
  | [] => [e]
  | x :: xs => if x.score ≥ e.score then x :: insertDesc e xs else e :: x :: xs

/-- Sort by `score` descending (the comparator `(a, b) => b.score - a.score`). -/
def sortDesc : List LBEntry → List LBEntry
  | [] => []
  | x :: xs => insertDesc x (sortDesc xs)

/-- `updateLeaderboard` (server.js lines 113–125): map players to stat
records, sort by score descending, keep the first 10. -/
def updateLeaderboard (players : List (String × Player)) : Option (List LBEntry) := do
  let stats ← (players.map Prod.snd).mapM lbStat
  pure ((sortDesc stats).take 10)

/-- `spawnPowerUp` (server.js lines 60–75).  `roll` is the spawn-chance
draw, `kind` the uniformly drawn type, `rx ry` the position draws in
`[0,1)`, `newId` the `generateId()` result. -/
def spawnPowerUp (roll : ℚ) (kind : PUKind) (rx ry : ℚ) (newId : String) (now : Nat)
    (pus : List (String × PowerUp)) : List (String × PowerUp) :=
  if roll < POWER_UP_SPAWN_RATE ∧ pus.length < 5 then
    setVal newId
      { id := newId, x := rx * (GAME_WIDTH - 30), y := ry * (GAME_HEIGHT - 30),
        kind := kind, duration := kind.duration, spawnTime := now } pus
  else pus

/-- `createExplosion` (server.js lines 78–88). -/
def createExplosion (x y size : ℚ) (now : Nat) (newId : String)
    (exs : List (String × Explosion)) : List (String × Explosion) :=
  setVal newId
    { id := newId, x := x, y := y, size := size, startTime := now,
      duration := EXPLOSION_DURATION } exs

/-- `applyPowerUp` (server.js lines 91–111).  The four timed kinds overwrite
the matching expiry with `now + duration`; `health` heals up to `maxHealth`.
Reads of an absent `powerUps`/`maxHealth` field fail. -/
def applyPowerUp (p : Player) (pu : PowerUp) (now : Nat) : Option Player :=
  match pu.kind with
  | .speed => do
      let e ← p.powerUps
      pure { p with powerUps := some { e with speed := now + pu.duration } }
  | .shield => do
      let e ← p.powerUps
      pure { p with powerUps := some { e with shield := now + pu.duration } }
  | .rapidFire => do
      let e ← p.powerUps
      pure { p with powerUps := some { e with rapidFire := now + pu.duration } }
  | .health => do
      let mh ← p.maxHealth
      pure { p with health := min mh (p.health + 50) }
  | .damage => do
      let e ← p.powerUps
      pure { p with powerUps := some { e with damage := now + pu.duration } }

/-! ## Connection lifecycle -/

/-- The `connection` handler's synchronous part (server.js lines 128–186):
either queue the new id as a spectator (game full) or create and store a
fresh player.  `rx ry rcolor rteam` are the creation draws. -/
def connect (s : GameState) (sid : String) (rx ry rcolor rteam : ℚ) :
    GameState × List Event :=
  if s.players.length ≥ MAX_PLAYERS then
    let specs := setAdd sid s.spectators
    ({ s with spectators := specs },
     [Event.gameFull specs.length, Event.gameStateMsg true])
  else
    let player := mkConnectPlayer sid rx ry rcolor rteam
    let ps := setVal sid player s.players
    ({ s with players := ps },
     [Event.gameStateMsg false, Event.playerJoined ps.length])

/-- The `disconnect` handler (server.js lines 250–296): remove the id from
players and spectators, cascade-delete its bullets, and, when a seated
player left and spectators wait, promote the queue head.  `rx ry rcolor`
are the promoted player's creation draws. -/
def disconnect (s : GameState) (sid : String) (rx ry rcolor : ℚ) :
    GameState × List Event :=
  let wasPlayer := (findVal sid s.players).isSome
  let players1 := delVal sid s.players
  let specs1 := setDel sid s.spectators
  let bullets1 := s.bullets.filter (fun b => b.2.playerId != sid)
  match wasPlayer, specs1 with
  | true, nextId :: restSpecs =>
      let specs2 := setDel nextId (nextId :: restSpecs)
      let newPlayer := mkPromotedPlayer nextId rx ry rcolor
      let players2 := setVal nextId newPlayer players1
      ({ players := players2, bullets := bullets1, spectators := specs2,
         powerUps := s.powerUps, explosions := s.explosions,
         leaderboard := s.leaderboard },
       [Event.promotedToPlayer nextId,
        Event.playerCountUpdate players2.length specs2.length])
  | _, _ =>
      ({ s with players := players1, spectators := specs1, bullets := bullets1 },
       [Event.playerCountUpdate players1.length specs1.length])

/-! ## Input handlers -/

/-- The power-up pickup scan at the end of `playerMove` (server.js lines
207–218): walk the power-up entries in order; at the first box overlap,
apply the effect, delete that power-up, emit `powerUpCollected`, stop. -/
def pickupScan (p : Player) (now : Nat) :
    List (String × PowerUp) → Option (Player × List (String × PowerUp) × List Event)
  | [] => some (p, [], [])
  | (puId, pu) :: rest =>
      let playerRect : Rect := { x := p.x, y := p.y, width := TANK_SIZE, height := TANK_SIZE }
      let powerUpRect : Rect := { x := pu.x, y := pu.y, width := 30, height := 30 }
      if checkCollision playerRect powerUpRect then do
        let p2 ← applyPowerUp p pu now
        pure (p2, rest, [Event.powerUpCollected pu.kind])
      else do
        let (p2, rest2, evs) ← pickupScan p now rest
        pure (p2, (puId, pu) :: rest2, evs)

/-- The `playerMove` handler (server.js lines 189–219): silently ignore
unknown senders; apply the intent scaled by `TANK_SPEED` (doubled under an
active `speed` effect), clamp into the arena, set the heading, then run the
pickup scan. -/
def playerMove (s : GameState) (sid : String) (dx dy angle : ℚ) (now : Nat) :
    Option (GameState × List Event) :=
  match findVal sid s.players with
  | none => some (s, [])
  | some player => do
      let e ← player.powerUps
      let speedMultiplier : ℚ := if e.speed > now then 2 else 1
      let newX0 := player.x + dx * TANK_SPEED * speedMultiplier
      let newY0 := player.y + dy * TANK_SPEED * speedMultiplier
      let newX := max 0 (min (GAME_WIDTH - TANK_SIZE) newX0)
      let newY := max 0 (min (GAME_HEIGHT - TANK_SIZE) newY0)
      let moved := { player with x := newX, y := newY, angle := angle }
      let (final, pus2, evs) ← pickupScan moved now s.powerUps
      pure ({ s with players := setVal sid final s.players, powerUps := pus2 }, evs)

/-- The `playerShoot` handler (server.js lines 222–247).  `cosA`/`sinA`
stand for `Math.cos`/`Math.sin`; `bulletId` is the `generateId()` draw.
A request inside the cooldown window returns the state unchanged.
(`now - lastShot` is truncated ℕ-subtraction; for `lastShot > now` both it
and the JS negative difference fall below the positive cooldown.) -/
def playerShoot (s : GameState) (sid : String) (angle : ℚ) (now : Nat)
    (bulletId : String) (cosA sinA : ℚ → ℚ) : Option GameState :=
  match findVal sid s.players with
  | none => some s
  | some player => do
      let e ← player.powerUps
      let shootCooldown : Nat := if e.rapidFire > now then 100 else 300
      let last ← player.lastShot
      if now - last < shootCooldown then
        pure s
      else
        let player2 := { player with lastShot := some now }
        let bullet : Bullet :=
          { id := bulletId, playerId := sid,
            x := player.x + TANK_SIZE / 2, y := player.y + TANK_SIZE / 2,
            dx := cosA angle * BULLET_SPEED, dy := sinA angle * BULLET_SPEED,
            angle := angle,
            damage := if e.damage > now then 50 else 25,
            color := if e.damage > now then "#e74c3c" else "#f39c12" }
        pure { s with players := setVal sid player2 s.players,
                      bullets := setVal bulletId bullet s.bullets }

/-! ## The fixed-tick game loop (server.js lines 300–403) -/

/-- All random draws and generated ids one tick may consume. -/
structure TickOracle where
  spawnRoll : ℚ
  spawnKind : PUKind
  spawnX : ℚ
  spawnY : ℚ
  spawnId : String
  respawnX : Nat → ℚ
  respawnY : Nat → ℚ
  explosionId : Nat → String

/-- The inner `for … of players.entries()` scan for one moved bullet:
the first non-owner entry whose tank box overlaps the bullet box, in store
order; entries after it are never examined (both branches `break`). -/
def findFirstHit (b : Bullet) : List (String × Player) → Option (String × Player)
  | [] => none
  | (pid, p) :: rest =>
      if pid = b.playerId then findFirstHit b rest
      else
        let bulletRect : Rect := { x := b.x, y := b.y, width := BULLET_SIZE, height := BULLET_SIZE }
        let playerRect : Rect := { x := p.x, y := p.y, width := TANK_SIZE, height := TANK_SIZE }
        if checkCollision bulletRect playerRect then some (pid, p)
        else findFirstHit b rest

/-- Mutable state threaded through the bullet loop: the player store, the
surviving bullets in order, explosions, the leaderboard, emitted events,
and counters for the respawn draws and explosion ids consumed so far. -/
structure LoopSt where
  players : List (String × Player)
  bullets : List (String × Bullet)
  explosions : List (String × Explosion)
  leaderboard : List LBEntry
  events : List Event
  deathCount : Nat
  exCount : Nat

/-- The fatal-hit branch of the collision resolution (server.js lines
361–389): credit the shooter when still connected (+2 score, +1 kill) and
emit the kill notice, increment the defender's deaths, spawn the death
explosion at the old position, respawn the defender (full heal, fresh
random position, all effects cleared), and recompute the leaderboard.
`target1` is the defender after damage was applied and `players1` the
store holding it. -/
def resolveFatal (o : TickOracle) (now : Nat) (st : LoopSt) (b : Bullet) (pid : String)
    (target1 : Player) (players1 : List (String × Player))
    (exs1 : List (String × Explosion)) (evs1 : List Event) : Option LoopSt := do
  let pe :=
    match findVal b.playerId players1 with
    | some shooter =>
        let shooter2 := { shooter with
          score := shooter.score + 2, kills := shooter.kills.map (· + 1) }
        (setVal b.playerId shooter2 players1,
         evs1 ++ [Event.playerKilled shooter2.score target1.score])
    | none => (players1, evs1)
  let target2 := { target1 with deaths := target1.deaths.map (· + 1) }
  let exs2 := createExplosion (target1.x + TANK_SIZE / 2) (target1.y + TANK_SIZE / 2)
    100 now (o.explosionId (st.exCount + 1)) exs1
  let mh ← target1.maxHealth
  let target3 := { target2 with
    health := mh,
    x := o.respawnX st.deathCount * (GAME_WIDTH - TANK_SIZE),
    y := o.respawnY st.deathCount * (GAME_HEIGHT - TANK_SIZE),
    powerUps := some { speed := 0, shield := 0, rapidFire := 0, damage := 0 } }
  let players3 := setVal pid target3 pe.1
  let lb ← updateLeaderboard players3
  pure { players := players3, bullets := st.bullets, explosions := exs2,
         leaderboard := lb, events := pe.2,
         deathCount := st.deathCount + 1, exCount := st.exCount + 2 }

/-- One iteration of the bullet loop (server.js lines 320–393): integrate
the bullet, drop it when out of bounds, otherwise resolve it against the
first colliding non-owner player — shield absorption, or damage with the
fatal branch (scoring, kill notice, respawn, leaderboard recomputation). -/
def stepBullet (o : TickOracle) (now : Nat) (st : LoopSt) (bid : String) (b0 : Bullet) :
    Option LoopSt :=
  let b := { b0 with x := b0.x + b0.dx, y := b0.y + b0.dy }
  if b.x < 0 ∨ b.x > GAME_WIDTH ∨ b.y < 0 ∨ b.y > GAME_HEIGHT then
    some st
  else
    match findFirstHit b st.players with
    | none => some { st with bullets := st.bullets ++ [(bid, b)] }
    | some (pid, player) => do
        let e ← player.powerUps
        if e.shield > now then
          pure { st with
            explosions := createExplosion b.x b.y 30 now (o.explosionId st.exCount) st.explosions,
            exCount := st.exCount + 1 }
        else
          let damage : Int := if b.damage = 0 then 25 else b.damage
          let target1 := { player with health := player.health - damage }
          let players1 := setVal pid target1 st.players
          let exs1 := createExplosion b.x b.y 40 now (o.explosionId st.exCount) st.explosions
          let evs1 := st.events ++ [Event.playerHit pid b.playerId damage b.x b.y]
          if target1.health ≤ 0 then
            resolveFatal o now st b pid target1 players1 exs1 evs1
          else
            pure { st with players := players1, explosions := exs1, events := evs1,
                           exCount := st.exCount + 1 }

/-- Fold `stepBullet` over the bullet entries in store order. -/
def tickLoop (o : TickOracle) (now : Nat) :
    List (String × Bullet) → LoopSt → Option LoopSt
  | [], st => some st
  | (bid, b) :: rest, st => do
      let st2 ← stepBullet o now st bid b
      tickLoop o now rest st2

/-- One simulation tick (server.js lines 300–403): spawn step, power-up and
explosion expiry sweeps, the bullet loop, then the `gameUpdate` broadcast of
the resulting stores. -/
def tick (s : GameState) (now : Nat) (o : TickOracle) :
    Option (GameState × List Event) := do
  let pus1 := spawnPowerUp o.spawnRoll o.spawnKind o.spawnX o.spawnY o.spawnId now s.powerUps
  let pus2 := pus1.filter (fun e => decide (now - e.2.spawnTime ≤ 30000))
  let exs2 := s.explosions.filter (fun e => decide (now - e.2.startTime ≤ e.2.duration))
  let st0 : LoopSt := { players := s.players, bullets := [], explosions := exs2,
                        leaderboard := s.leaderboard, events := [],
                        deathCount := 0, exCount := 0 }
  let st ← tickLoop o now s.bullets st0
  let s2 : GameState := { players := st.players, bullets := st.bullets,
                          spectators := s.spectators, powerUps := pus2,
                          explosions := st.explosions, leaderboard := st.leaderboard }
  pure (s2, st.events ++ [Event.gameUpdate (s2.players.map Prod.snd)
    (s2.bullets.map Prod.snd) (s2.powerUps.map Prod.snd)
    (s2.explosions.map Prod.snd) s2.leaderboard])

/-! ## Invariant predicates -/

/-- The health invariant for one player: positive health, a present
`maxHealth`, and health within it. -/
def goodPlayer (p : Player) : Prop :=
  0 < p.health ∧ ∃ mh, p.maxHealth = some mh ∧ p.health ≤ mh

/-- An event list containing no `gameUpdate` broadcast. -/
def noUpdates (evs : List Event) : Prop :=
  ∀ ps bs pus exs lb, Event.gameUpdate ps bs pus exs lb ∉ evs

/-! ## Concrete sample states (used to instantiate theorems) -/

def basePlayer (id : String) : Player := mkConnectPlayer id 0 0 0 0

def emptyState : GameState :=
  { players := [], bullets := [], spectators := [], powerUps := [],
    explosions := [], leaderboard := [] }

def onePlayerState : GameState :=
  { emptyState with players := [("p1", basePlayer "p1")] }

def eightSeats : List (String × Player) :=
  [("p1", basePlayer "p1"), ("p2", basePlayer "p2"), ("p3", basePlayer "p3"),
   ("p4", basePlayer "p4"), ("p5", basePlayer "p5"), ("p6", basePlayer "p6"),
   ("p7", basePlayer "p7"), ("p8", basePlayer "p8")]

def fullState : GameState := { emptyState with players := eightSeats }

def trivialOracle : TickOracle :=
  { spawnRoll := 1, spawnKind := PUKind.speed, spawnX := 0, spawnY := 0,
    spawnId := "pu1", respawnX := fun _ => 0, respawnY := fun _ => 0,
    explosionId := fun _ => "ex" }

/-- A player standing at (90, 90) holding a shield that expires at t=1000. -/
def shieldVictim : Player :=
  { basePlayer "victim" with
    x := 90, y := 90,
    powerUps := some { speed := 0, shield := 1000, rapidFire := 0, damage := 0 } }

def shieldSt : LoopSt :=
  { players := [("victim", shieldVictim)], bullets := [], explosions := [],
    leaderboard := [], events := [], deathCount := 0, exCount := 0 }

/-- A bullet owned by another player sitting inside the victim tank's box. -/
def shieldBullet : Bullet :=
  { id := "b1", playerId := "shooter", x := 100, y := 100, dx := 0, dy := 0,
    angle := 0, damage := 25, color := "#f39c12" }

/-- Two seated players with a leaderboard naming both, as left behind by a
kill event that ran `updateLeaderboard`. -/
def staleState : GameState :=
  { players := [("A", { basePlayer "A" with score := 2 }), ("B", basePlayer "B")],
    bullets := [], spectators := [], powerUps := [], explosions := [],
    leaderboard := [{ id := "A", score := 2, kills := 1, deaths := 0, kd := 1 },
                    { id := "B", score := 0, kills := 0, deaths := 1, kd := 0 }] }

/-! ## Lemmas about the map and set operations -/

theorem findVal_setVal_self (k : String) (v : α) (l : List (String × α)) :
    findVal k (setVal k v l) = some v := by
  induction l with
  | nil => simp [setVal, findVal]
  | cons hd tl ih =>
      obtain ⟨k2, v2⟩ := hd
      by_cases h : k2 = k
      · simp [setVal, findVal, h]
      · simp [setVal, findVal, h, ih]

theorem findVal_setVal_ne (k k2 : String) (v : α) (l : List (String × α)) (h : k ≠ k2) :
    findVal k2 (setVal k v l) = findVal k2 l := by
  induction l with
  | nil => simp [setVal, findVal, h]
  | cons hd tl ih =>
      obtain ⟨k3, v3⟩ := hd
      by_cases h3 : k3 = k
      · subst h3
        simp [setVal, findVal, h]
      · simp [setVal, findVal, h3, ih]

theorem setVal_length_le (k : String) (v : α) (l : List (String × α)) :
    (setVal k v l).length ≤ l.length + 1 := by
  induction l with
  | nil => simp [setVal]
  | cons hd tl ih =>
      obtain ⟨k2, v2⟩ := hd
      by_cases h : k2 = k
      · simp [setVal, h]
      · simp only [setVal, if_neg h, List.length_cons]
        omega

theorem delVal_of_not_found (k : String) (l : List (String × α))
    (h : findVal k l = none) : delVal k l = l := by
  induction l with
  | nil => simp [delVal]
  | cons hd tl ih =>
      obtain ⟨k2, v2⟩ := hd
      by_cases h2 : k2 = k
      · simp [findVal, h2] at h
      · simp only [findVal, if_neg h2] at h
        simp [delVal, h2, ih h]

theorem findVal_mem (k : String) (v : α) (l : List (String × α))
    (h : findVal k l = some v) : (k, v) ∈ l := by
  induction l with
  | nil => simp [findVal] at h
  | cons hd tl ih =>
      obtain ⟨k2, v2⟩ := hd
      by_cases h2 : k2 = k
      · simp only [findVal, if_pos h2, Option.some.injEq] at h
        subst h2; subst h
        exact List.mem_cons_self _ _
      · simp only [findVal, if_neg h2] at h
        exact List.mem_cons_of_mem _ (ih h)

theorem forall_mem_setVal {Q : String × α → Prop} (k : String) (v : α)
    (l : List (String × α)) (hl : ∀ pr ∈ l, Q pr) (hv : Q (k, v)) :
    ∀ pr ∈ setVal k v l, Q pr := by
  induction l with
  | nil =>
      intro pr hpr
      simp [setVal] at hpr
      subst hpr; exact hv
  | cons hd tl ih =>
      obtain ⟨k2, v2⟩ := hd
      intro pr hpr
      by_cases h : k2 = k
      · simp only [setVal, if_pos h, List.mem_cons] at hpr
        rcases hpr with rfl | hpr
        · exact hv
        · exact hl pr (List.mem_cons_of_mem _ hpr)
      · simp only [setVal, if_neg h, List.mem_cons] at hpr
        rcases hpr with rfl | hpr
        · exact hl _ (List.mem_cons_self _ _)
        · exact ih (fun q hq => hl q (List.mem_cons_of_mem _ hq)) pr hpr

theorem setVal_setVal (k : String) (v1 v2 : α) (l : List (String × α)) :
    setVal k v2 (setVal k v1 l) = setVal k v2 l := by
  induction l with
  | nil => simp [setVal]
  | cons hd tl ih =>
      obtain ⟨k2, w⟩ := hd
      by_cases h : k2 = k
      · simp [setVal, h]
      · simp [setVal, h, ih]

theorem setVal_outer_collapse (k k2 : String) (v1 v2 w : α) (l : List (String × α))
    (h : k ≠ k2) :
    setVal k v2 (setVal k2 w (setVal k v1 l)) = setVal k2 w (setVal k v2 l) := by
  induction l with
  | nil =>
      simp [setVal, h, Ne.symm h]
  | cons hd tl ih =>
      obtain ⟨k3, v3⟩ := hd
      by_cases h3 : k3 = k
      · subst h3
        simp [setVal, h, Ne.symm h]
      · by_cases h4 : k3 = k2
        · subst h4
          simp [setVal, h3, Ne.symm h, setVal_setVal]
        · simp [setVal, h3, h4, ih]

theorem setDel_of_not_mem (k : String) (l : List String) (h : k ∉ l) :
    setDel k l = l := by
  apply List.filter_eq_self.2
  intro a ha
  simp only [bne_iff_ne, ne_eq, decide_eq_true_eq]
  intro hak
  exact h (hak ▸ ha)

/-! ## Lemmas about the leaderboard sort -/

theorem mem_insertDesc (e x : LBEntry) (l : List LBEntry) :
    x ∈ insertDesc e l ↔ x = e ∨ x ∈ l := by
  induction l with
  | nil => simp [insertDesc]
  | cons hd tl ih =>
      by_cases h : hd.score ≥ e.score
      · simp only [insertDesc, if_pos h, List.mem_cons, ih]
        tauto
      · simp only [insertDesc, if_neg h, List.mem_cons]

theorem pairwise_insertDesc (e : LBEntry) (l : List LBEntry)
    (h : l.Pairwise (fun a b => b.score ≤ a.score)) :
    (insertDesc e l).Pairwise (fun a b => b.score ≤ a.score) := by
  induction l with
  | nil => simp [insertDesc]
  | cons hd tl ih =>
      rcases List.pairwise_cons.1 h with ⟨hhd, htl⟩
      by_cases hc : hd.score ≥ e.score
      · simp only [insertDesc, if_pos hc]
        refine List.pairwise_cons.2 ⟨?_, ih htl⟩
        intro y hy
        rcases (mem_insertDesc e y tl).1 hy with rfl | hy
        · exact hc
        · exact hhd y hy
      · simp only [insertDesc, if_neg hc]
        refine List.pairwise_cons.2 ⟨?_, h⟩
        intro y hy
        rcases List.mem_cons.1 hy with rfl | hy
        · omega
        · have := hhd y hy
          omega

theorem pairwise_sortDesc (l : List LBEntry) :
    (sortDesc l).Pairwise (fun a b => b.score ≤ a.score) := by
  induction l with
  | nil => simp [sortDesc]
  | cons hd tl ih => exact pairwise_insertDesc hd (sortDesc tl) ih

/-! ## Claim theorems -/

/-- C1: the claim states that the Player created for a promoted spectator has
the same fields and default values as one created by the on-connect join
path, differing only in the random draws.  The code contradicts this (and
its own downstream field reads): the promotion literal stops after `color`,
so for every choice of random draws the promoted player lacks `maxHealth`,
`kills`, `deaths`, the `powerUps` (activeEffects) record, `lastShot` and
`team`, all of which the join path initialises. -/
theorem C1_promotion_omits_join_defaults (id1 id2 : String) (rx ry rc rt rx2 ry2 rc2 : ℚ) :
    (mkConnectPlayer id1 rx ry rc rt).maxHealth = some 100 ∧
    (mkConnectPlayer id1 rx ry rc rt).kills = some 0 ∧
    (mkConnectPlayer id1 rx ry rc rt).deaths = some 0 ∧
    (mkConnectPlayer id1 rx ry rc rt).powerUps =
      some { speed := 0, shield := 0, rapidFire := 0, damage := 0 } ∧
    (mkConnectPlayer id1 rx ry rc rt).lastShot = some 0 ∧
    (mkConnectPlayer id1 rx ry rc rt).team.isSome = true ∧
    (mkPromotedPlayer id2 rx2 ry2 rc2).maxHealth = none ∧
    (mkPromotedPlayer id2 rx2 ry2 rc2).kills = none ∧
    (mkPromotedPlayer id2 rx2 ry2 rc2).deaths = none ∧
    (mkPromotedPlayer id2 rx2 ry2 rc2).powerUps = none ∧
    (mkPromotedPlayer id2 rx2 ry2 rc2).lastShot = none ∧
    (mkPromotedPlayer id2 rx2 ry2 rc2).team = none ∧
    (mkPromotedPlayer id2 rx2 ry2 rc2).wellFormed = false := by
  exact ⟨rfl, rfl, rfl, rfl, rfl, rfl, rfl, rfl, rfl, rfl, rfl, rfl, rfl⟩

/-- C6: a connection arriving while all 8 seats are occupied creates no
player entity; the id is appended to the spectator queue, and the emitted
`gameFull` notice reports queue position equal to the prior spectator count
plus one, followed by the read-only snapshot message. -/
theorem C6_full_game_queues_spectator (s : GameState) (sid : String) (rx ry rc rt : ℚ)
    (hfull : s.players.length ≥ MAX_PLAYERS) (hnew : sid ∉ s.spectators) :
    (connect s sid rx ry rc rt).1.players = s.players ∧
    (connect s sid rx ry rc rt).1.spectators = s.spectators ++ [sid] ∧
    (connect s sid rx ry rc rt).2 =
      [Event.gameFull (s.spectators.length + 1), Event.gameStateMsg true] := by
  simp [connect, hfull, setAdd, hnew]

theorem C6_full_game_queues_spectator_witness :
    (connect fullState "s9" 0 0 0 0).1.players = fullState.players ∧
    (connect fullState "s9" 0 0 0 0).1.spectators = fullState.spectators ++ ["s9"] ∧
    (connect fullState "s9" 0 0 0 0).2 =
      [Event.gameFull (fullState.spectators.length + 1), Event.gameStateMsg true] :=
  C6_full_game_queues_spectator fullState "s9" 0 0 0 0 (by decide) (by decide)

/-- C7: every leaderboard produced by `updateLeaderboard` has at most 10
entries and is sorted by score in non-increasing order. -/
theorem C7_leaderboard_top10_sorted (players : List (String × Player)) (lb : List LBEntry)
    (h : updateLeaderboard players = some lb) :
    lb.length ≤ 10 ∧ lb.Pairwise (fun a b => b.score ≤ a.score) := by
  unfold updateLeaderboard at h
  cases hm : (players.map Prod.snd).mapM lbStat with
  | none => rw [hm] at h; simp at h
  | some stats =>
      rw [hm] at h
      simp only [Option.bind_eq_bind, Option.some_bind, Option.pure_def,
        Option.some.injEq] at h
      subst h
      constructor
      · rw [List.length_take]
        exact min_le_left _ _
      · exact (pairwise_sortDesc stats).sublist (List.take_sublist 10 (sortDesc stats))

theorem C7_leaderboard_top10_sorted_witness :
    ([{ id := "p1", score := 0, kills := 0, deaths := 0, kd := 0 }] : List LBEntry).length ≤ 10 ∧
    ([{ id := "p1", score := 0, kills := 0, deaths := 0, kd := 0 }] : List LBEntry).Pairwise
      (fun a b => b.score ≤ a.score) :=
  C7_leaderboard_top10_sorted [("p1", basePlayer "p1")]
    [{ id := "p1", score := 0, kills := 0, deaths := 0, kd := 0 }] (by decide)

/-- C8: a disconnect signal for an id that holds no seat, is not in the
spectator queue, and owns no bullets (i.e. one already fully removed, as
after a duplicate or out-of-order disconnect) is a no-op: the state is
returned unchanged, no promotion notice is emitted, and only the usual
count broadcast fires. -/
theorem C8_disconnect_idempotent (s : GameState) (sid : String) (rx ry rc : ℚ)
    (hp : findVal sid s.players = none) (hs : sid ∉ s.spectators)
    (hb : ∀ br ∈ s.bullets, br.2.playerId ≠ sid) :
    disconnect s sid rx ry rc =
      (s, [Event.playerCountUpdate s.players.length s.spectators.length]) := by
  have hbf : s.bullets.filter (fun b => b.2.playerId != sid) = s.bullets := by
    apply List.filter_eq_self.2
    intro b hbm
    simpa using hb b hbm
  simp [disconnect, hp, delVal_of_not_found sid s.players hp,
    setDel_of_not_mem sid s.spectators hs, hbf]

theorem C8_disconnect_idempotent_witness :
    disconnect onePlayerState "ghost" 0 0 0 =
      (onePlayerState,
       [Event.playerCountUpdate onePlayerState.players.length
          onePlayerState.spectators.length]) :=
  C8_disconnect_idempotent onePlayerState "ghost" 0 0 0 (by decide) (by decide) (by decide)

/-! ## Lemmas about the pickup scan -/

theorem applyPowerUp_total (p : Player) (pu : PowerUp) (now : Nat)
    (he : p.powerUps.isSome = true) (hmh : p.maxHealth.isSome = true) :
    ∃ p2, applyPowerUp p pu now = some p2 ∧ p2.x = p.x ∧ p2.y = p.y := by
  obtain ⟨e, he2⟩ := Option.isSome_iff_exists.1 he
  obtain ⟨mh, hmh2⟩ := Option.isSome_iff_exists.1 hmh
  cases hk : pu.kind
  case speed =>
    refine ⟨{ p with powerUps := some { e with speed := now + pu.duration } }, ?_, rfl, rfl⟩
    simp [applyPowerUp, hk, he2]
  case shield =>
    refine ⟨{ p with powerUps := some { e with shield := now + pu.duration } }, ?_, rfl, rfl⟩
    simp [applyPowerUp, hk, he2]
  case rapidFire =>
    refine ⟨{ p with powerUps := some { e with rapidFire := now + pu.duration } }, ?_, rfl, rfl⟩
    simp [applyPowerUp, hk, he2]
  case health =>
    refine ⟨{ p with health := min mh (p.health + 50) }, ?_, rfl, rfl⟩
    simp [applyPowerUp, hk, hmh2]
  case damage =>
    refine ⟨{ p with powerUps := some { e with damage := now + pu.duration } }, ?_, rfl, rfl⟩
    simp [applyPowerUp, hk, he2]

theorem pickupScan_total (p : Player) (now : Nat) (l : List (String × PowerUp))
    (he : p.powerUps.isSome = true) (hmh : p.maxHealth.isSome = true) :
    ∃ p2 l2 evs, pickupScan p now l = some (p2, l2, evs) ∧ p2.x = p.x ∧ p2.y = p.y := by
  induction l with
  | nil => exact ⟨p, [], [], rfl, rfl, rfl⟩
  | cons hd tl ih =>
      obtain ⟨puId, pu⟩ := hd
      by_cases hc : checkCollision
          { x := p.x, y := p.y, width := TANK_SIZE, height := TANK_SIZE }
          { x := pu.x, y := pu.y, width := 30, height := 30 } = true
      · obtain ⟨p2, hap, hx, hy⟩ := applyPowerUp_total p pu now he hmh
        exact ⟨p2, tl, [Event.powerUpCollected pu.kind],
          by simp [pickupScan, hc, hap], hx, hy⟩
      · obtain ⟨p2, l2, evs, hscan, hx, hy⟩ := ih
        exact ⟨p2, (puId, pu) :: l2, evs,
          by simp [pickupScan, hc, hscan], hx, hy⟩

theorem pickupScan_shrinks (p : Player) (now : Nat) :
    ∀ (l : List (String × PowerUp)) p2 l2 evs,
      pickupScan p now l = some (p2, l2, evs) → l2.length ≤ l.length := by
  intro l
  induction l with
  | nil =>
      intro p2 l2 evs h
      simp only [pickupScan, Option.some.injEq, Prod.mk.injEq] at h
      obtain ⟨-, h2, -⟩ := h
      subst h2
      exact Nat.le_refl 0
  | cons hd tl ih =>
      intro p2 l2 evs h
      obtain ⟨puId, pu⟩ := hd
      rw [pickupScan] at h
      by_cases hc : checkCollision
          { x := p.x, y := p.y, width := TANK_SIZE, height := TANK_SIZE }
          { x := pu.x, y := pu.y, width := 30, height := 30 } = true
      · rw [if_pos hc] at h
        cases hap : applyPowerUp p pu now with
        | none => rw [hap] at h; simp at h
        | some p3 =>
            rw [hap] at h
            simp only [Option.bind_eq_bind, Option.some_bind, Option.pure_def,
              Option.some.injEq, Prod.mk.injEq] at h
            obtain ⟨h1, h2, h3⟩ := h
            subst h2
            simp
      · rw [if_neg hc] at h
        cases hscan : pickupScan p now tl with
        | none => rw [hscan] at h; simp at h
        | some r =>
            obtain ⟨p3, l3, evs3⟩ := r
            rw [hscan] at h
            simp only [Option.bind_eq_bind, Option.some_bind, Option.pure_def,
              Option.some.injEq, Prod.mk.injEq] at h
            obtain ⟨h1, h2, h3⟩ := h
            subst h2
            simpa using Nat.succ_le_succ (ih p3 l3 evs3 hscan)

/-- Computation rule for `playerMove` on a live player whose `powerUps`
record is present. -/
theorem playerMove_eq (s : GameState) (sid : String) (dx dy angle : ℚ) (now : Nat)
    (p : Player) (e : Effects)
    (hp : findVal sid s.players = some p) (he : p.powerUps = some e) :
    playerMove s sid dx dy angle now =
      (pickupScan
        { p with
          x := max 0 (min (GAME_WIDTH - TANK_SIZE)
                 (p.x + dx * TANK_SPEED * (if e.speed > now then 2 else 1))),
          y := max 0 (min (GAME_HEIGHT - TANK_SIZE)
                 (p.y + dy * TANK_SPEED * (if e.speed > now then 2 else 1))),
          angle := angle, powerUps := some e } now s.powerUps).bind
        (fun r => some ({ s with players := setVal sid r.1 s.players,
                                 powerUps := r.2.1 }, r.2.2)) := by
  simp only [playerMove, hp, he, Option.bind_eq_bind, Option.some_bind]
  rfl

/-- C9: for every `playerMove` message with arbitrary rational `dx`/`dy`
(the handler performs no range validation), the acting player's resulting
position is clamped into
`[0, GAME_WIDTH - TANK_SIZE] × [0, GAME_HEIGHT - TANK_SIZE]`. -/
theorem C9_move_clamps_position (s : GameState) (sid : String) (dx dy angle : ℚ)
    (now : Nat) (p : Player) (e : Effects)
    (hp : findVal sid s.players = some p) (he : p.powerUps = some e)
    (hmh : p.maxHealth.isSome = true) :
    ∃ s2 evs p2, playerMove s sid dx dy angle now = some (s2, evs) ∧
      findVal sid s2.players = some p2 ∧
      0 ≤ p2.x ∧ p2.x ≤ GAME_WIDTH - TANK_SIZE ∧
      0 ≤ p2.y ∧ p2.y ≤ GAME_HEIGHT - TANK_SIZE := by
  obtain ⟨p2, l2, evs, hscan, hx, hy⟩ :=
    pickupScan_total
      { p with
        x := max 0 (min (GAME_WIDTH - TANK_SIZE)
               (p.x + dx * TANK_SPEED * (if e.speed > now then 2 else 1))),
        y := max 0 (min (GAME_HEIGHT - TANK_SIZE)
               (p.y + dy * TANK_SPEED * (if e.speed > now then 2 else 1))),
        angle := angle, powerUps := some e } now s.powerUps rfl hmh
  refine ⟨{ s with players := setVal sid p2 s.players, powerUps := l2 }, evs, p2, ?_,
    findVal_setVal_self sid p2 s.players, ?_, ?_, ?_, ?_⟩
  · rw [playerMove_eq s sid dx dy angle now p e hp he, hscan]
    rfl
  · rw [hx]; exact le_max_left 0 _
  · rw [hx]
    exact max_le (by norm_num [GAME_WIDTH, TANK_SIZE]) (min_le_left _ _)
  · rw [hy]; exact le_max_left 0 _
  · rw [hy]
    exact max_le (by norm_num [GAME_HEIGHT, TANK_SIZE]) (min_le_left _ _)

theorem C9_move_clamps_position_witness :
    ∃ s2 evs p2, playerMove onePlayerState "p1" 1000000 (-99) 0 0 = some (s2, evs) ∧
      findVal "p1" s2.players = some p2 ∧
      0 ≤ p2.x ∧ p2.x ≤ GAME_WIDTH - TANK_SIZE ∧
      0 ≤ p2.y ∧ p2.y ≤ GAME_HEIGHT - TANK_SIZE :=
  C9_move_clamps_position onePlayerState "p1" 1000000 (-99) 0 0 (basePlayer "p1")
    { speed := 0, shield := 0, rapidFire := 0, damage := 0 } rfl rfl rfl

/-- Computation rule for `playerShoot` on a live player whose `powerUps`
and `lastShot` fields are present. -/
theorem playerShoot_eq (s : GameState) (sid : String) (angle : ℚ) (now : Nat)
    (bulletId : String) (cosA sinA : ℚ → ℚ) (p : Player) (e : Effects) (last : Nat)
    (hp : findVal sid s.players = some p) (he : p.powerUps = some e)
    (hl : p.lastShot = some last) :
    playerShoot s sid angle now bulletId cosA sinA =
      (if now - last < (if e.rapidFire > now then 100 else 300) then some s
       else some { s with
         players := setVal sid { p with lastShot := some now } s.players,
         bullets := setVal bulletId
           { id := bulletId, playerId := sid,
             x := p.x + TANK_SIZE / 2, y := p.y + TANK_SIZE / 2,
             dx := cosA angle * BULLET_SPEED, dy := sinA angle * BULLET_SPEED,
             angle := angle,
             damage := if e.damage > now then 50 else 25,
             color := if e.damage > now then "#e74c3c" else "#f39c12" } s.bullets }) := by
  simp only [playerShoot, hp, he, hl, Option.bind_eq_bind, Option.some_bind]
  split <;> rfl

/-- C4: two `playerShoot` requests from the same live player whose
timestamps differ by less than the cooldown active at the second request
(300ms normally, 100ms under rapid fire, measured from `lastShot`) insert
at most one bullet, and the rejected request changes nothing at all. -/
theorem C4_shoot_cooldown (s0 : GameState) (sid : String) (a1 a2 : ℚ) (t1 t2 : Nat)
    (id1 id2 : String) (cosA sinA : ℚ → ℚ) (p0 : Player) (e0 : Effects) (l0 : Nat)
    (hp : findVal sid s0.players = some p0)
    (hpu : p0.powerUps = some e0) (hls : p0.lastShot = some l0)
    (hwin : t2 - t1 < if e0.rapidFire > t2 then 100 else 300) :
    ∃ s1 s2, playerShoot s0 sid a1 t1 id1 cosA sinA = some s1 ∧
      playerShoot s1 sid a2 t2 id2 cosA sinA = some s2 ∧
      s2.bullets.length ≤ s0.bullets.length + 1 ∧
      (s1 = s0 ∨ s2 = s1) := by
  rw [playerShoot_eq s0 sid a1 t1 id1 cosA sinA p0 e0 l0 hp hpu hls]
  by_cases hc1 : t1 - l0 < (if e0.rapidFire > t1 then 100 else 300)
  · rw [if_pos hc1]
    by_cases hc2 : t2 - l0 < (if e0.rapidFire > t2 then 100 else 300)
    · refine ⟨s0, s0, rfl, ?_, Nat.le_succ _, Or.inl rfl⟩
      rw [playerShoot_eq s0 sid a2 t2 id2 cosA sinA p0 e0 l0 hp hpu hls, if_pos hc2]
    · refine ⟨s0, { s0 with
          players := setVal sid { p0 with lastShot := some t2 } s0.players,
          bullets := setVal id2
            { id := id2, playerId := sid,
              x := p0.x + TANK_SIZE / 2, y := p0.y + TANK_SIZE / 2,
              dx := cosA a2 * BULLET_SPEED, dy := sinA a2 * BULLET_SPEED,
              angle := a2,
              damage := if e0.damage > t2 then 50 else 25,
              color := if e0.damage > t2 then "#e74c3c" else "#f39c12" } s0.bullets },
        rfl, ?_, ?_, Or.inl rfl⟩
      · rw [playerShoot_eq s0 sid a2 t2 id2 cosA sinA p0 e0 l0 hp hpu hls, if_neg hc2]
      · exact setVal_length_le id2 _ s0.bullets
  · rw [if_neg hc1]
    refine ⟨_, _, rfl, ?_, ?_, Or.inr rfl⟩
    · rw [playerShoot_eq _ sid a2 t2 id2 cosA sinA { p0 with lastShot := some t1 } e0 t1
        (findVal_setVal_self sid _ s0.players) hpu rfl]
      rw [if_pos hwin]
    · exact setVal_length_le id1 _ s0.bullets

theorem C4_shoot_cooldown_witness :
    ∃ s1 s2, playerShoot onePlayerState "p1" 0 500 "b1" (fun _ => 1) (fun _ => 0) = some s1 ∧
      playerShoot s1 "p1" 0 600 "b2" (fun _ => 1) (fun _ => 0) = some s2 ∧
      s2.bullets.length ≤ onePlayerState.bullets.length + 1 ∧
      (s1 = onePlayerState ∨ s2 = s1) :=
  C4_shoot_cooldown onePlayerState "p1" 0 0 500 600 "b1" "b2" (fun _ => 1) (fun _ => 0)
    (basePlayer "p1") { speed := 0, shield := 0, rapidFire := 0, damage := 0 } 0
    rfl rfl rfl (by norm_num)

/-! ## Frame and cap lemmas -/

theorem spawnPowerUp_length (roll : ℚ) (kind : PUKind) (rx ry : ℚ) (newId : String)
    (now : Nat) (pus : List (String × PowerUp)) (h : pus.length ≤ 5) :
    (spawnPowerUp roll kind rx ry newId now pus).length ≤ 5 := by
  unfold spawnPowerUp
  split
  · next hcond =>
      have h1 := setVal_length_le newId
        ({ id := newId, x := rx * (GAME_WIDTH - 30), y := ry * (GAME_HEIGHT - 30),
           kind := kind, duration := kind.duration, spawnTime := now } : PowerUp) pus
      omega
  · exact h

/-- Unfolding rule for `tick` as a bind over the bullet loop. -/
theorem tick_eq (s : GameState) (now : Nat) (o : TickOracle) :
    tick s now o =
      (tickLoop o now s.bullets
        { players := s.players, bullets := [],
          explosions := s.explosions.filter
            (fun e => decide (now - e.2.startTime ≤ e.2.duration)),
          leaderboard := s.leaderboard, events := [],
          deathCount := 0, exCount := 0 }).bind
        (fun st =>
          some ({ players := st.players, bullets := st.bullets,
                  spectators := s.spectators,
                  powerUps := (spawnPowerUp o.spawnRoll o.spawnKind o.spawnX o.spawnY
                    o.spawnId now s.powerUps).filter
                      (fun e => decide (now - e.2.spawnTime ≤ 30000)),
                  explosions := st.explosions, leaderboard := st.leaderboard },
                st.events ++ [Event.gameUpdate (st.players.map Prod.snd)
                  (st.bullets.map Prod.snd)
                  (((spawnPowerUp o.spawnRoll o.spawnKind o.spawnX o.spawnY o.spawnId now
                    s.powerUps).filter
                      (fun e => decide (now - e.2.spawnTime ≤ 30000))).map Prod.snd)
                  (st.explosions.map Prod.snd) st.leaderboard])) := rfl

theorem connect_frame (s : GameState) (sid : String) (rx ry rc rt : ℚ) :
    ((connect s sid rx ry rc rt).1).powerUps = s.powerUps ∧
    ((connect s sid rx ry rc rt).1).leaderboard = s.leaderboard ∧
    ((connect s sid rx ry rc rt).1).bullets = s.bullets := by
  unfold connect
  split <;> exact ⟨rfl, rfl, rfl⟩

theorem disconnect_frame (s : GameState) (sid : String) (rx ry rc : ℚ) :
    ((disconnect s sid rx ry rc).1).powerUps = s.powerUps ∧
    ((disconnect s sid rx ry rc).1).leaderboard = s.leaderboard ∧
    ((disconnect s sid rx ry rc).1).explosions = s.explosions := by
  unfold disconnect
  cases hw : (findVal sid s.players).isSome <;>
    cases hs : setDel sid s.spectators <;>
      simp [hw, hs]

theorem playerMove_frame (s : GameState) (sid : String) (dx dy angle : ℚ)
    (now : Nat) (s2 : GameState) (evs : List Event)
    (h : playerMove s sid dx dy angle now = some (s2, evs)) :
    s2.leaderboard = s.leaderboard ∧ s2.bullets = s.bullets ∧
    s2.powerUps.length ≤ s.powerUps.length := by
  cases hp : findVal sid s.players with
  | none =>
      simp only [playerMove, hp, Option.some.injEq, Prod.mk.injEq] at h
      obtain ⟨h1, -⟩ := h
      subst h1
      exact ⟨rfl, rfl, Nat.le_refl _⟩
  | some p =>
      simp only [playerMove, hp] at h
      cases he : p.powerUps with
      | none => rw [he] at h; simp at h
      | some e =>
          rw [he] at h
          simp only [Option.bind_eq_bind, Option.some_bind] at h
          obtain ⟨r, hr, hf⟩ := Option.bind_eq_some.mp h
          obtain ⟨rp, rl, re⟩ := r
          simp only [Option.pure_def, Option.some.injEq, Prod.mk.injEq] at hf
          obtain ⟨h1, -⟩ := hf
          subst h1
          exact ⟨rfl, rfl, pickupScan_shrinks _ now _ rp rl re hr⟩

theorem playerShoot_frame (s : GameState) (sid : String) (angle : ℚ) (now : Nat)
    (bulletId : String) (cosA sinA : ℚ → ℚ) (s2 : GameState)
    (h : playerShoot s sid angle now bulletId cosA sinA = some s2) :
    s2.powerUps = s.powerUps ∧ s2.leaderboard = s.leaderboard ∧
    s2.explosions = s.explosions := by
  cases hp : findVal sid s.players with
  | none =>
      simp only [playerShoot, hp, Option.some.injEq] at h
      subst h
      exact ⟨rfl, rfl, rfl⟩
  | some p =>
      simp only [playerShoot, hp] at h
      cases he : p.powerUps with
      | none => rw [he] at h; simp at h
      | some e =>
          rw [he] at h
          cases hl : p.lastShot with
          | none => rw [hl] at h; simp at h
          | some last =>
              rw [hl] at h
              simp only [Option.bind_eq_bind, Option.some_bind] at h
              split at h <;> split at h <;>
                (simp only [Option.pure_def, Option.some.injEq] at h; subst h;
                 exact ⟨rfl, rfl, rfl⟩)

/-- C5: the power-up store never grows beyond 5 entries: the tick's spawn
step creates a power-up only below the cap, and every other operation on
the store (pickup during a move, shoot, connect, disconnect, the expiry
sweep) only deletes entries or leaves the store alone. -/
theorem C5_powerup_cap (s : GameState) (h5 : s.powerUps.length ≤ 5) :
    (∀ now o s2 evs, tick s now o = some (s2, evs) → s2.powerUps.length ≤ 5) ∧
    (∀ sid dx dy angle now s2 evs, playerMove s sid dx dy angle now = some (s2, evs) →
      s2.powerUps.length ≤ 5) ∧
    (∀ sid angle now bulletId cosA sinA s2,
      playerShoot s sid angle now bulletId cosA sinA = some s2 →
      s2.powerUps.length ≤ 5) ∧
    (∀ sid rx ry rc rt, ((connect s sid rx ry rc rt).1).powerUps.length ≤ 5) ∧
    (∀ sid rx ry rc, ((disconnect s sid rx ry rc).1).powerUps.length ≤ 5) := by
  refine ⟨?_, ?_, ?_, ?_, ?_⟩
  · intro now o s2 evs h
    rw [tick_eq] at h
    obtain ⟨st, -, hf⟩ := Option.bind_eq_some.mp h
    simp only [Option.some.injEq, Prod.mk.injEq] at hf
    obtain ⟨h1, -⟩ := hf
    subst h1
    calc ((spawnPowerUp o.spawnRoll o.spawnKind o.spawnX o.spawnY o.spawnId now
          s.powerUps).filter (fun e => decide (now - e.2.spawnTime ≤ 30000))).length
        ≤ (spawnPowerUp o.spawnRoll o.spawnKind o.spawnX o.spawnY o.spawnId now
            s.powerUps).length := List.length_filter_le _ _
      _ ≤ 5 := spawnPowerUp_length _ _ _ _ _ now s.powerUps h5
  · intro sid dx dy angle now s2 evs h
    have := (playerMove_frame s sid dx dy angle now s2 evs h).2.2
    omega
  · intro sid angle now bulletId cosA sinA s2 h
    have := (playerShoot_frame s sid angle now bulletId cosA sinA s2 h).1
    rw [this]
    exact h5
  · intro sid rx ry rc rt
    rw [(connect_frame s sid rx ry rc rt).1]
    exact h5
  · intro sid rx ry rc
    rw [(disconnect_frame s sid rx ry rc).1]
    exact h5

theorem C5_powerup_cap_witness :
    ((connect emptyState "p9" 0 0 0 0).1).powerUps.length ≤ 5 :=
  (C5_powerup_cap emptyState (by simp [emptyState])).2.2.2.1 "p9" 0 0 0 0

/-! ## Lemmas about the collision scan -/

theorem findFirstHit_append_of_none (b : Bullet) (l1 l2 : List (String × Player))
    (h : findFirstHit b l1 = none) :
    findFirstHit b (l1 ++ l2) = findFirstHit b l2 := by
  induction l1 with
  | nil => rfl
  | cons hd tl ih =>
      obtain ⟨pid, p⟩ := hd
      simp only [findFirstHit] at h
      rw [List.cons_append]
      simp only [findFirstHit]
      by_cases ho : pid = b.playerId
      · rw [if_pos ho] at h ⊢
        exact ih h
      · rw [if_neg ho] at h ⊢
        by_cases hcl : checkCollision
            { x := b.x, y := b.y, width := BULLET_SIZE, height := BULLET_SIZE }
            { x := p.x, y := p.y, width := TANK_SIZE, height := TANK_SIZE } = true
        · rw [if_pos hcl] at h
          exact absurd h (by simp)
        · rw [if_neg hcl] at h ⊢
          exact ih h

theorem findFirstHit_cons_hit (b : Bullet) (pid : String) (p : Player)
    (l : List (String × Player)) (ho : pid ≠ b.playerId)
    (hcl : checkCollision
      { x := b.x, y := b.y, width := BULLET_SIZE, height := BULLET_SIZE }
      { x := p.x, y := p.y, width := TANK_SIZE, height := TANK_SIZE } = true) :
    findFirstHit b ((pid, p) :: l) = some (pid, p) := by
  simp only [findFirstHit]
  rw [if_neg ho, if_pos hcl]

/-- C3: when the first colliding non-owner player in store order has an
active (unexpired) shield, the bullet resolution leaves every player — in
particular the defender — untouched, deletes the bullet (it is not among
the survivors), only spawns the small cosmetic explosion, and never
examines the entries after the defender (the scan's result is the same for
every suffix). -/
theorem C3_shield_absorbs (o : TickOracle) (now : Nat) (st : LoopSt) (bid : String)
    (b0 : Bullet) (l1 l2 : List (String × Player)) (pid : String) (p : Player)
    (e : Effects)
    (hst : st.players = l1 ++ (pid, p) :: l2)
    (hin : ¬(b0.x + b0.dx < 0 ∨ b0.x + b0.dx > GAME_WIDTH ∨
             b0.y + b0.dy < 0 ∨ b0.y + b0.dy > GAME_HEIGHT))
    (hpre : findFirstHit { b0 with x := b0.x + b0.dx, y := b0.y + b0.dy } l1 = none)
    (hown : pid ≠ b0.playerId)
    (hcl : checkCollision
      { x := b0.x + b0.dx, y := b0.y + b0.dy, width := BULLET_SIZE, height := BULLET_SIZE }
      { x := p.x, y := p.y, width := TANK_SIZE, height := TANK_SIZE } = true)
    (he : p.powerUps = some e) (hsh : e.shield > now) :
    stepBullet o now st bid b0 =
      some { st with
        explosions := createExplosion (b0.x + b0.dx) (b0.y + b0.dy) 30 now
          (o.explosionId st.exCount) st.explosions,
        exCount := st.exCount + 1 } ∧
    findFirstHit { b0 with x := b0.x + b0.dx, y := b0.y + b0.dy } (l1 ++ (pid, p) :: l2) =
      findFirstHit { b0 with x := b0.x + b0.dx, y := b0.y + b0.dy } (l1 ++ [(pid, p)]) := by
  have hfh : findFirstHit { b0 with x := b0.x + b0.dx, y := b0.y + b0.dy } st.players
      = some (pid, p) := by
    rw [hst, findFirstHit_append_of_none _ _ _ hpre]
    exact findFirstHit_cons_hit _ pid p l2 hown hcl
  constructor
  · simp only [stepBullet, hfh, he, Option.bind_eq_bind, Option.some_bind]
    rw [if_neg hin, if_pos hsh]
    rfl
  · rw [findFirstHit_append_of_none _ _ _ hpre,
      findFirstHit_append_of_none _ _ _ hpre,
      findFirstHit_cons_hit { b0 with x := b0.x + b0.dx, y := b0.y + b0.dy } pid p l2 hown hcl,
      findFirstHit_cons_hit { b0 with x := b0.x + b0.dx, y := b0.y + b0.dy } pid p [] hown hcl]

theorem C3_shield_absorbs_witness :
    stepBullet trivialOracle 0 shieldSt "b1" shieldBullet =
      some { shieldSt with
        explosions := createExplosion (shieldBullet.x + shieldBullet.dx)
          (shieldBullet.y + shieldBullet.dy) 30 0 (trivialOracle.explosionId shieldSt.exCount)
          shieldSt.explosions,
        exCount := shieldSt.exCount + 1 } ∧
    findFirstHit { shieldBullet with
        x := shieldBullet.x + shieldBullet.dx, y := shieldBullet.y + shieldBullet.dy }
      ([] ++ ("victim", shieldVictim) :: []) =
      findFirstHit { shieldBullet with
        x := shieldBullet.x + shieldBullet.dx, y := shieldBullet.y + shieldBullet.dy }
      ([] ++ [("victim", shieldVictim)]) :=
  C3_shield_absorbs trivialOracle 0 shieldSt "b1" shieldBullet [] [] "victim" shieldVictim
    { speed := 0, shield := 1000, rapidFire := 0, damage := 0 }
    rfl
    (by norm_num [shieldBullet, GAME_WIDTH, GAME_HEIGHT])
    rfl
    (by simp [shieldBullet])
    (by norm_num [checkCollision, shieldBullet, shieldVictim, basePlayer, mkConnectPlayer,
      BULLET_SIZE, TANK_SIZE])
    rfl
    (by norm_num)

/-! ## Health-invariant preservation through the tick -/

theorem findFirstHit_mem (b : Bullet) (l : List (String × Player)) (pid : String)
    (p : Player) (h : findFirstHit b l = some (pid, p)) :
    (pid, p) ∈ l ∧ pid ≠ b.playerId := by
  induction l with
  | nil => simp [findFirstHit] at h
  | cons hd tl ih =>
      obtain ⟨k, q⟩ := hd
      simp only [findFirstHit] at h
      by_cases ho : k = b.playerId
      · rw [if_pos ho] at h
        obtain ⟨hm, hn⟩ := ih h
        exact ⟨List.mem_cons_of_mem _ hm, hn⟩
      · rw [if_neg ho] at h
        by_cases hcl : checkCollision
            { x := b.x, y := b.y, width := BULLET_SIZE, height := BULLET_SIZE }
            { x := q.x, y := q.y, width := TANK_SIZE, height := TANK_SIZE } = true
        · rw [if_pos hcl] at h
          simp only [Option.some.injEq, Prod.mk.injEq] at h
          obtain ⟨h1, h2⟩ := h
          subst h1; subst h2
          exact ⟨List.mem_cons_self _ _, ho⟩
        · rw [if_neg hcl] at h
          obtain ⟨hm, hn⟩ := ih h
          exact ⟨List.mem_cons_of_mem _ hm, hn⟩

theorem noUpdates_nil : noUpdates [] := by
  intro ps bs pus exs lb hm
  simp at hm

theorem noUpdates_append (evs : List Event) (ev : Event) (h : noUpdates evs)
    (hev : ∀ ps bs pus exs lb, ev ≠ Event.gameUpdate ps bs pus exs lb) :
    noUpdates (evs ++ [ev]) := by
  intro ps bs pus exs lb hm
  rcases List.mem_append.1 hm with hm | hm
  · exact h ps bs pus exs lb hm
  · simp only [List.mem_singleton] at hm
    exact hev ps bs pus exs lb hm.symm

theorem resolveFatal_inv (o : TickOracle) (now : Nat) (st : LoopSt) (b : Bullet)
    (pid : String) (p : Player) (dmg : Int)
    (exs1 : List (String × Explosion)) (evs1 : List Event) (st2 : LoopSt)
    (hg : ∀ pr ∈ st.players, goodPlayer pr.2)
    (hgp : goodPlayer p)
    (hown : pid ≠ b.playerId)
    (hne : noUpdates evs1)
    (h : resolveFatal o now st b pid { p with health := p.health - dmg }
          (setVal pid { p with health := p.health - dmg } st.players) exs1 evs1 = some st2) :
    (∀ pr ∈ st2.players, goodPlayer pr.2) ∧ noUpdates st2.events := by
  obtain ⟨hpos, mh0, hmh0, hle0⟩ := hgp
  simp only [resolveFatal, Option.bind_eq_bind] at h
  cases hsh : findVal b.playerId
      (setVal pid { p with health := p.health - dmg } st.players) with
  | some shooter =>
      simp only [hsh] at h
      obtain ⟨mh, hmh, h⟩ := Option.bind_eq_some.mp h
      obtain ⟨lb, hlb, h⟩ := Option.bind_eq_some.mp h
      simp only [Option.pure_def, Option.some.injEq] at h
      subst h
      have hmh2 : p.maxHealth = some mh := hmh
      rw [hmh0] at hmh2
      obtain rfl := Option.some.inj hmh2
      have hshooter : findVal b.playerId st.players = some shooter := by
        rw [findVal_setVal_ne pid b.playerId _ st.players hown] at hsh
        exact hsh
      have hgs : goodPlayer shooter := hg _ (findVal_mem _ _ _ hshooter)
      constructor
      · rw [setVal_outer_collapse pid b.playerId _ _ _ st.players hown]
        apply forall_mem_setVal (Q := fun pr => goodPlayer pr.2)
        · apply forall_mem_setVal (Q := fun pr => goodPlayer pr.2) _ _ _ hg
          exact ⟨lt_of_lt_of_le hpos hle0, mh0, hmh, le_refl mh0⟩
        · obtain ⟨hp1, m2, hm2, hl2⟩ := hgs
          exact ⟨hp1, m2, hm2, hl2⟩
      · apply noUpdates_append _ _ hne
        intro ps bs pus exs lb2
        simp
  | none =>
      simp only [hsh] at h
      obtain ⟨mh, hmh, h⟩ := Option.bind_eq_some.mp h
      obtain ⟨lb, hlb, h⟩ := Option.bind_eq_some.mp h
      simp only [Option.pure_def, Option.some.injEq] at h
      subst h
      have hmh2 : p.maxHealth = some mh := hmh
      rw [hmh0] at hmh2
      obtain rfl := Option.some.inj hmh2
      constructor
      · rw [setVal_setVal pid _ _ st.players]
        apply forall_mem_setVal (Q := fun pr => goodPlayer pr.2) _ _ _ hg
        exact ⟨lt_of_lt_of_le hpos hle0, mh0, hmh, le_refl mh0⟩
      · exact hne

set_option maxHeartbeats 1000000 in
theorem stepBullet_inv (o : TickOracle) (now : Nat) (st st2 : LoopSt) (bid : String)
    (b0 : Bullet) (hd : 0 ≤ b0.damage)
    (hg : ∀ pr ∈ st.players, goodPlayer pr.2) (hne : noUpdates st.events)
    (h : stepBullet o now st bid b0 = some st2) :
    (∀ pr ∈ st2.players, goodPlayer pr.2) ∧ noUpdates st2.events := by
  simp only [stepBullet, Option.bind_eq_bind, Option.pure_def] at h
  by_cases hoob : b0.x + b0.dx < 0 ∨ b0.x + b0.dx > GAME_WIDTH ∨
      b0.y + b0.dy < 0 ∨ b0.y + b0.dy > GAME_HEIGHT
  · rw [if_pos hoob] at h
    obtain rfl := Option.some.inj h
    exact ⟨hg, hne⟩
  · rw [if_neg hoob] at h
    cases hfh : findFirstHit { b0 with x := b0.x + b0.dx, y := b0.y + b0.dy } st.players with
    | none =>
        simp only [hfh] at h
        obtain rfl := Option.some.inj h
        exact ⟨hg, hne⟩
    | some hit =>
        obtain ⟨pid, p⟩ := hit
        simp only [hfh] at h
        have hmem := findFirstHit_mem _ _ _ _ hfh
        have hgp : goodPlayer p := hg _ hmem.1
        cases he : p.powerUps with
        | none => rw [he] at h; simp at h
        | some e =>
            rw [he] at h
            simp only [Option.some_bind] at h
            by_cases hsh : e.shield > now
            · rw [if_pos hsh] at h
              obtain rfl := Option.some.inj h
              exact ⟨hg, hne⟩
            · rw [if_neg hsh] at h
              have hdmg : 0 ≤ (if b0.damage = 0 then 25 else b0.damage : Int) := by
                split
                · omega
                · exact hd
              by_cases hfat : p.health - (if b0.damage = 0 then 25 else b0.damage) ≤ 0
              · rw [if_pos hfat] at h
                rw [← he] at h
                refine resolveFatal_inv o now st
                  { b0 with x := b0.x + b0.dx, y := b0.y + b0.dy } pid p
                  (if b0.damage = 0 then 25 else b0.damage)
                  (createExplosion (b0.x + b0.dx) (b0.y + b0.dy) 40 now
                    (o.explosionId st.exCount) st.explosions)
                  (st.events ++ [Event.playerHit pid b0.playerId
                    (if b0.damage = 0 then 25 else b0.damage) (b0.x + b0.dx) (b0.y + b0.dy)])
                  st2 hg hgp hmem.2 ?_ h
                apply noUpdates_append _ _ hne
                intro ps bs pus exs lb
                simp
              · rw [if_neg hfat] at h
                obtain rfl := Option.some.inj h
                constructor
                · apply forall_mem_setVal (Q := fun pr => goodPlayer pr.2) _ _ _ hg
                  obtain ⟨hp1, m2, hm2, hl2⟩ := hgp
                  constructor
                  · show 0 < p.health - (if b0.damage = 0 then 25 else b0.damage)
                    omega
                  · refine ⟨m2, hm2, ?_⟩
                    show p.health - (if b0.damage = 0 then 25 else b0.damage) ≤ m2
                    omega
                · apply noUpdates_append _ _ hne
                  intro ps bs pus exs lb
                  simp

theorem tickLoop_inv (o : TickOracle) (now : Nat) :
    ∀ (bl : List (String × Bullet)) (st st2 : LoopSt),
      (∀ br ∈ bl, 0 ≤ br.2.damage) →
      (∀ pr ∈ st.players, goodPlayer pr.2) → noUpdates st.events →
      tickLoop o now bl st = some st2 →
      (∀ pr ∈ st2.players, goodPlayer pr.2) ∧ noUpdates st2.events := by
  intro bl
  induction bl with
  | nil =>
      intro st st2 _ hg hne h
      obtain rfl := Option.some.inj h
      exact ⟨hg, hne⟩
  | cons hd tl ih =>
      intro st st2 hdm hg hne h
      obtain ⟨bid, b⟩ := hd
      simp only [tickLoop, Option.bind_eq_bind] at h
      obtain ⟨stm, hstep, hrest⟩ := Option.bind_eq_some.mp h
      have hb : 0 ≤ b.damage := hdm (bid, b) (List.mem_cons_self _ _)
      obtain ⟨hg2, hne2⟩ := stepBullet_inv o now st stm bid b hb hg hne hstep
      exact ih stm st2 (fun br hbr => hdm br (List.mem_cons_of_mem _ hbr)) hg2 hne2 hrest

/-- C2: a completed simulation tick keeps every stored player's health in
`(0, maxHealth]` (in particular in `[0, maxHealth]`), and the `gameUpdate`
broadcast it emits never contains a player with health ≤ 0: a fatal hit is
reset to full health in the same tick, before the broadcast. -/
theorem C2_health_bounds (s : GameState) (now : Nat) (o : TickOracle)
    (s2 : GameState) (evs : List Event)
    (hg : ∀ pr ∈ s.players, 0 < pr.2.health ∧
      ∃ mh, pr.2.maxHealth = some mh ∧ pr.2.health ≤ mh)
    (hd : ∀ br ∈ s.bullets, 0 ≤ br.2.damage)
    (h : tick s now o = some (s2, evs)) :
    (∀ pr ∈ s2.players, 0 ≤ pr.2.health ∧
      ∃ mh, pr.2.maxHealth = some mh ∧ pr.2.health ≤ mh) ∧
    (∀ ps bs pus exs lb, Event.gameUpdate ps bs pus exs lb ∈ evs →
      ∀ q ∈ ps, 0 < q.health) := by
  rw [tick_eq] at h
  obtain ⟨st, hloop, hf⟩ := Option.bind_eq_some.mp h
  simp only [Option.some.injEq, Prod.mk.injEq] at hf
  obtain ⟨h1, h2⟩ := hf
  subst h1
  subst h2
  have hinv := tickLoop_inv o now s.bullets _ st hd hg noUpdates_nil hloop
  constructor
  · intro pr hpr
    obtain ⟨hp1, mh, hm, hl⟩ := hinv.1 pr hpr
    exact ⟨le_of_lt hp1, mh, hm, hl⟩
  · intro ps bs pus exs lb hm q hq
    rcases List.mem_append.1 hm with hm | hm
    · exact absurd hm (hinv.2 ps bs pus exs lb)
    · simp only [List.mem_singleton, Event.gameUpdate.injEq] at hm
      obtain ⟨hps, -, -, -, -⟩ := hm
      subst hps
      rcases List.mem_map.1 hq with ⟨pr, hpr, rfl⟩
      exact (hinv.1 pr hpr).1

theorem C2_health_bounds_witness :
    (∀ pr ∈ ({
        players := [("p1", basePlayer "p1")], bullets := [], spectators := [],
        powerUps := [], explosions := [],
        leaderboard := [] } : GameState).players,
      0 ≤ pr.2.health ∧ ∃ mh, pr.2.maxHealth = some mh ∧ pr.2.health ≤ mh) ∧
    (∀ ps bs pus exs lb, Event.gameUpdate ps bs pus exs lb ∈
        [Event.gameUpdate [basePlayer "p1"] [] [] [] []] →
      ∀ q ∈ ps, 0 < q.health) :=
  C2_health_bounds onePlayerState 0 trivialOracle
    {
      players := [("p1", basePlayer "p1")], bullets := [], spectators := [],
      powerUps := [], explosions := [], leaderboard := [] }
    [Event.gameUpdate [basePlayer "p1"] [] [] [] []]
    (by
      intro pr hpr
      simp only [onePlayerState, emptyState, List.mem_singleton] at hpr
      subst hpr
      exact ⟨by norm_num [basePlayer, mkConnectPlayer], 100,
        by norm_num [basePlayer, mkConnectPlayer], by norm_num [basePlayer, mkConnectPlayer]⟩)
    (by intro br hbr; simp [onePlayerState, emptyState] at hbr)
    (by
      rw [tick_eq]
      norm_num [tickLoop, spawnPowerUp, trivialOracle, onePlayerState, emptyState,
        POWER_UP_SPAWN_RATE])

/-! ## Leaderboard frame lemmas (C10) -/

theorem resolveFatal_lb (o : TickOracle) (now : Nat) (st : LoopSt) (b : Bullet)
    (pid : String) (target1 : Player) (players1 : List (String × Player))
    (exs1 : List (String × Explosion)) (evs1 : List Event) (st2 : LoopSt)
    (h : resolveFatal o now st b pid target1 players1 exs1 evs1 = some st2) :
    ∃ ps, updateLeaderboard ps = some st2.leaderboard := by
  simp only [resolveFatal, Option.bind_eq_bind] at h
  obtain ⟨mh, hmh, h⟩ := Option.bind_eq_some.mp h
  obtain ⟨lb, hlb, h⟩ := Option.bind_eq_some.mp h
  simp only [Option.pure_def, Option.some.injEq] at h
  subst h
  exact ⟨_, hlb⟩

theorem stepBullet_lb (o : TickOracle) (now : Nat) (st st2 : LoopSt) (bid : String)
    (b0 : Bullet) (h : stepBullet o now st bid b0 = some st2) :
    st2.leaderboard = st.leaderboard ∨
      ∃ ps, updateLeaderboard ps = some st2.leaderboard := by
  simp only [stepBullet, Option.bind_eq_bind, Option.pure_def] at h
  by_cases hoob : b0.x + b0.dx < 0 ∨ b0.x + b0.dx > GAME_WIDTH ∨
      b0.y + b0.dy < 0 ∨ b0.y + b0.dy > GAME_HEIGHT
  · rw [if_pos hoob] at h
    obtain rfl := Option.some.inj h
    exact Or.inl rfl
  · rw [if_neg hoob] at h
    cases hfh : findFirstHit { b0 with x := b0.x + b0.dx, y := b0.y + b0.dy } st.players with
    | none =>
        simp only [hfh] at h
        obtain rfl := Option.some.inj h
        exact Or.inl rfl
    | some hit =>
        obtain ⟨pid, p⟩ := hit
        simp only [hfh] at h
        cases he : p.powerUps with
        | none => rw [he] at h; simp at h
        | some e =>
            rw [he] at h
            simp only [Option.some_bind] at h
            by_cases hsh : e.shield > now
            · rw [if_pos hsh] at h
              obtain rfl := Option.some.inj h
              exact Or.inl rfl
            · rw [if_neg hsh] at h
              by_cases hfat : p.health - (if b0.damage = 0 then 25 else b0.damage) ≤ 0
              · rw [if_pos hfat] at h
                exact Or.inr (resolveFatal_lb _ _ _ _ _ _ _ _ _ _ h)
              · rw [if_neg hfat] at h
                obtain rfl := Option.some.inj h
                exact Or.inl rfl

theorem tickLoop_lb (o : TickOracle) (now : Nat) :
    ∀ (bl : List (String × Bullet)) (st st2 : LoopSt),
      tickLoop o now bl st = some st2 →
      st2.leaderboard = st.leaderboard ∨
        ∃ ps, updateLeaderboard ps = some st2.leaderboard := by
  intro bl
  induction bl with
  | nil =>
      intro st st2 h
      obtain rfl := Option.some.inj h
      exact Or.inl rfl
  | cons hd tl ih =>
      intro st st2 h
      obtain ⟨bid, b⟩ := hd
      simp only [tickLoop, Option.bind_eq_bind] at h
      obtain ⟨stm, hstep, hrest⟩ := Option.bind_eq_some.mp h
      rcases ih stm st2 hrest with hlb | hlb
      · rw [hlb]
        exact stepBullet_lb o now st stm bid b hstep
      · exact Or.inr hlb

/-- C10: the leaderboard is never touched by the lifecycle and input
handlers — connect, disconnect, move and shoot all leave it unchanged — and
a tick changes it only through `updateLeaderboard` (the fatal-hit branch).
Consequently, after a kill has populated the leaderboard, disconnecting a
listed player leaves that player's stale entry in every later snapshot:
concretely, disconnecting "A" from `staleState` keeps an entry with id "A"
while no player with id "A" remains. -/
theorem C10_leaderboard_frame (s : GameState) :
    (∀ sid rx ry rc rt, ((connect s sid rx ry rc rt).1).leaderboard = s.leaderboard) ∧
    (∀ sid rx ry rc, ((disconnect s sid rx ry rc).1).leaderboard = s.leaderboard) ∧
    (∀ sid dx dy angle now s2 evs, playerMove s sid dx dy angle now = some (s2, evs) →
      s2.leaderboard = s.leaderboard) ∧
    (∀ sid angle now bulletId cosA sinA s2,
      playerShoot s sid angle now bulletId cosA sinA = some s2 →
      s2.leaderboard = s.leaderboard) ∧
    (∀ now o s2 evs, tick s now o = some (s2, evs) →
      s2.leaderboard = s.leaderboard ∨
        ∃ ps, updateLeaderboard ps = some s2.leaderboard) ∧
    (∃ en ∈ ((disconnect staleState "A" 0 0 0).1).leaderboard,
      en.id = "A" ∧ findVal en.id ((disconnect staleState "A" 0 0 0).1).players = none) := by
  refine ⟨?_, ?_, ?_, ?_, ?_, ?_⟩
  · intro sid rx ry rc rt
    exact (connect_frame s sid rx ry rc rt).2.1
  · intro sid rx ry rc
    exact (disconnect_frame s sid rx ry rc).2.1
  · intro sid dx dy angle now s2 evs h
    exact (playerMove_frame s sid dx dy angle now s2 evs h).1
  · intro sid angle now bulletId cosA sinA s2 h
    exact (playerShoot_frame s sid angle now bulletId cosA sinA s2 h).2.1
  · intro now o s2 evs h
    rw [tick_eq] at h
    obtain ⟨st, hloop, hf⟩ := Option.bind_eq_some.mp h
    simp only [Option.some.injEq, Prod.mk.injEq] at hf
    obtain ⟨h1, -⟩ := hf
    subst h1
    exact tickLoop_lb o now s.bullets _ st hloop
  · exact ⟨{ id := "A", score := 2, kills := 1, deaths := 0, kd := 1 }, by decide, rfl,
      by decide⟩

theorem C10_leaderboard_frame_witness :
    ((connect staleState "Z" 0 0 0 0).1).leaderboard = staleState.leaderboard :=
  (C10_leaderboard_frame staleState).1 "Z" 0 0 0 0

end Tank
